import Mathlib

/-!
Verification development for the k3sd cluster provisioner.

The Go sources are shallowly embedded: pure helpers become Lean functions,
and the effectful orchestration code (SSH, remote command execution, the
Kubernetes API) is modelled by explicit state passing against an oracle
(`World`, `ApplyEnv`, ...) that decides which external operations succeed.
String helpers mirror the semantics of the Go standard library functions
(`strings.Split`, `strings.TrimSpace`, `strings.ReplaceAll`, ...) that the
sources call; they are implemented over `List Char` by structural recursion
so that every definition evaluates inside the kernel.
-/

namespace K3sd

/-- Mirrors `strings.HasPrefix` at the `List Char` level: `listStartsWith pat l`
is true when `pat` is an initial segment of `l`. -/
def listStartsWith : List Char → List Char → Bool
  | [], _ => true
  | _ :: _, [] => false
  | a :: as, b :: bs => a == b && listStartsWith as bs

/-- Mirrors `strings.HasSuffix` at the `List Char` level. -/
def listEndsWith (pat l : List Char) : Bool :=
  listStartsWith pat.reverse l.reverse

/-- Worker loop of Go `strings.Split` for a nonempty separator: scan the
input, cutting at each leftmost nonoverlapping occurrence of `sep`.  The
`Nat` argument is recursion fuel; callers pass the input length plus one,
which is enough because every step consumes at least one character. -/
def splitAux (sep : List Char) : Nat → List Char → List Char → List (List Char)
  | _, [], acc => [acc.reverse]
  | 0, rest, acc => [acc.reverse ++ rest]
  | Nat.succ fuel, c :: rest, acc =>
    if listStartsWith sep (c :: rest) then
      acc.reverse :: splitAux sep fuel (List.drop sep.length (c :: rest)) []
    else
      splitAux sep fuel rest (c :: acc)

/-- Model of Go `strings.Split s sep`.  The sources only ever call it with
the nonempty separator `"\n---"`; the empty-separator case is left as the
identity and never exercised. -/
def goSplit (s sep : String) : List String :=
  match sep.data with
  | [] => [s]
  | c :: cs => (splitAux (c :: cs) (s.data.length + 1) s.data []).map String.mk

/-- Whitespace predicate of Go `strings.TrimSpace` restricted to the ASCII
space characters; all inputs handled by the sources are ASCII. -/
def isSpaceChar (c : Char) : Bool :=
  c == ' ' || c == '\t' || c == '\n' || c == '\r' || c == '\x0b' || c == '\x0c'

/-- Model of Go `strings.TrimSpace`. -/
def goTrim (s : String) : String :=
  String.mk (((s.data.dropWhile isSpaceChar).reverse.dropWhile isSpaceChar).reverse)

/-- Model of Go `strings.HasPrefix`. -/
def goStartsWith (s pat : String) : Bool :=
  listStartsWith pat.data s.data

/-- Model of Go `strings.HasSuffix`. -/
def goEndsWith (s pat : String) : Bool :=
  listEndsWith pat.data s.data

/-- Worker loop of Go `strings.ReplaceAll` for a nonempty pattern, with
recursion fuel as in `splitAux`. -/
def replaceAux (pat rep : List Char) : Nat → List Char → List Char
  | _, [] => []
  | 0, rest => rest
  | Nat.succ fuel, c :: rest =>
    if listStartsWith pat (c :: rest) then
      rep ++ replaceAux pat rep fuel (List.drop pat.length (c :: rest))
    else
      c :: replaceAux pat rep fuel rest

/-- Model of Go `strings.ReplaceAll s pat rep` (and of `strings.Replace`
with count `-1`).  The sources only call it with nonempty patterns such as
`"127.0.0.1"` or `"${DOMAIN}"`; the empty-pattern case is left as the
identity and never exercised. -/
def goReplace (s pat rep : String) : String :=
  match pat.data with
  | [] => s
  | c :: cs => String.mk (replaceAux (c :: cs) rep.data (s.data.length + 1) s.data)

/-! ### Data model (`cluster/model.go`)

`Cluster` embeds `Worker` in Go; the embedding is mirrored with
`extends`.  The Go field `Labels map[string]string` is represented as an
association list. -/

/-- Worker node record (`cluster/model.go`). -/
structure Worker where
  address : String
  user : String
  password : String
  nodeName : String
  labels : List (String × String)
  done : Bool
deriving DecidableEq

/-- PostgreSQL credentials of the Gitea sub-config (`cluster/model.go`). -/
structure Pg where
  username : String
  password : String
  dbName : String
deriving DecidableEq

/-- Gitea sub-config (`cluster/model.go`). -/
structure Gitea where
  pg : Pg
deriving DecidableEq

/-- Cluster record (`cluster/model.go`); embeds `Worker` as in the source. -/
structure Cluster extends Worker where
  domain : String
  gitea : Gitea
  privateNet : Bool
  workers : List Worker
deriving DecidableEq

/-! ### Manifest engine (`cluster/manifest.go`) -/

/-- Model of `applySubstitutions`: literal whole-text replacement for each
entry of the substitution map, in order.  A `nil` map in Go corresponds to
the empty list here, for which the fold returns the input unchanged. -/
def applySubstitutions (data : String) (substitutions : List (String × String)) : String :=
  substitutions.foldl (fun content kv => goReplace content kv.1 kv.2) data

/-- Model of `splitYAMLDocs`: split on the exact byte sequence `"\n---"`,
trim each segment, and drop segments that are blank or start with `#`. -/
def splitYAMLDocs (data : String) : List String :=
  ((goSplit data "\n---").map goTrim).filter
    (fun doc => !(doc == "" || goStartsWith doc "#"))

/-- C4: `splitYAMLDocs` splits exactly on `"\n---"` and discards blank or
comment segments: the spec example yields exactly `["a: 1", "b: 2"]`, and a
separator at position zero (no preceding newline) is not a split point, so
a document starting with `"---\n"` stays one document. -/
theorem C4_splitYAMLDocs_spec :
    splitYAMLDocs "a: 1\n---\nb: 2\n---\n# c\n\n" = ["a: 1", "b: 2"] ∧
    splitYAMLDocs "---\na: 1" = ["---\na: 1"] := by
  decide

/-! ### Orchestrator (`cluster/create.go`, `cluster/uninstall.go`)

The orchestration loop talks to remote machines over SSH.  Those effects
are modelled by a `World` oracle deciding which dials, command batches and
token fetches succeed, plus the feature-flag table `utils.Flags`.  The
observable behaviour is a trace of `Event`s together with the final
in-memory cluster slice (`state`) and the Go return value (`none` models
the `nil, err` return). -/

/-- External-effect oracle for one orchestration pass. -/
structure World where
  sshOk : String → Bool
  execOk : String → List String → Bool
  tokenResult : String → Option String
  flags : String → Bool

/-- Observable actions of `CreateCluster`. -/
inductive Event where
  | bootstrap (addr : String) (cmds : List String)
  | kubeconfigFetch (addr nodeName : String)
  | labelNode (nodeName : String)
  | applyManifest (source : String) (substitutions : List (String × String))
  | helmInstall (release : String)
  | linkerdInstall (multicluster : Bool)
  | tokenCreate (addr : String)
  | joinCmds (viaAddr : String) (cmds : List String)
deriving DecidableEq

/-- Model of `baseClusterCommands` (`cluster/create.go`). -/
def baseClusterCommands (cluster : Cluster) : List String :=
  [ "sudo apt-get update -y",
    "sudo apt-get install curl wget zip unzip -y",
    "curl -sfL https://get.k3s.io | INSTALL_K3S_EXEC=\x27--disable traefik --node-name "
      ++ cluster.nodeName ++ "\x27 K3S_KUBECONFIG_MODE=\"644\" sh -",
    "sleep 10" ]

/-- Join commands relayed through the control-plane node when the fleet is
on a private network (`cluster/create.go`, `PrivateNet` branch). -/
def privateJoinCmds (cluster : Cluster) (worker : Worker) (token : String) : List String :=
  [ "ssh " ++ worker.user ++ "@" ++ worker.address
      ++ " \"sudo apt update && sudo apt install -y curl\"",
    "ssh " ++ worker.user ++ "@" ++ worker.address
      ++ " \"curl -sfL https://get.k3s.io | K3S_URL=https://" ++ cluster.address
      ++ ":6443 K3S_TOKEN=\x27" ++ goTrim token ++ "\x27 INSTALL_K3S_EXEC=\x27--node-name "
      ++ worker.nodeName ++ "\x27 sh -\"" ]

/-- Join commands run directly on the worker from the operator host
(`cluster/create.go`, non-`PrivateNet` branch). -/
def directJoinCmds (cluster : Cluster) (worker : Worker) (token : String) : List String :=
  [ "sudo apt update && sudo apt install -y curl",
    "curl -sfL https://get.k3s.io | K3S_URL=https://" ++ cluster.address
      ++ ":6443 K3S_TOKEN=\x27" ++ goTrim token ++ "\x27 INSTALL_K3S_EXEC=\x27--node-name "
      ++ worker.nodeName ++ "\x27 sh -" ]

/-- Optional components applied after a successful bootstrap, gated by the
feature flags exactly as in `cluster/create.go`; every failure there is
only logged, so the events record the attempts. -/
def optionalAppEvents (w : World) (cluster : Cluster) : List Event :=
  (if w.flags "cert-manager" then
    [ Event.applyManifest "https://github.com/cert-manager/cert-manager/releases/download/v1.17.2/cert-manager.yaml" [],
      Event.applyManifest "https://github.com/cert-manager/cert-manager/releases/download/v1.17.2/cert-manager.crds.yaml" [] ]
   else [])
  ++ (if w.flags "traefik-values" then [Event.applyManifest "yamls/traefik-values.yaml" []] else [])
  ++ (if w.flags "clusterissuer" then
        [Event.applyManifest "yamls/clusterissuer.yaml"
          [("$\x7bDOMAIN\x7d", cluster.domain), ("DOMAIN", cluster.domain)]]
      else [])
  ++ (if w.flags "gitea" then
        [Event.applyManifest "yamls/gitea.yaml"
          [("$\x7bPOSTGRES_USER\x7d", cluster.gitea.pg.username),
           ("$\x7bPOSTGRES_PASSWORD\x7d", cluster.gitea.pg.password),
           ("$\x7bPOSTGRES_DB\x7d", cluster.gitea.pg.dbName)]]
        ++ (if w.flags "gitea-ingress" then
              [Event.applyManifest "yamls/gitea.ingress.yaml"
                [("$\x7bDOMAIN\x7d", cluster.domain), ("DOMAIN", cluster.domain)]]
            else [])
      else [])
  ++ (if w.flags "prometheus" then [Event.helmInstall "kube-prom-stack"] else [])
  ++ (if w.flags "linkerd" then [Event.linkerdInstall false] else [])
  ++ (if w.flags "linkerd-mc" then [Event.linkerdInstall true] else [])

/-- One iteration of the worker loop of `CreateCluster`.  Returns the
updated worker, the emitted events, and whether the iteration hit a
`return nil, err` path (join command failure).  Note the source sets the
worker `Done` flag to true before fetching the join token. -/
def processWorker (w : World) (cluster : Cluster) (worker : Worker) :
    Worker × List Event × Bool :=
  if worker.done then (worker, [], false)
  else
    let worker1 := { worker with done := true }
    match w.tokenResult cluster.address with
    | none => (worker1, [Event.tokenCreate cluster.address], false)
    | some token =>
      if cluster.privateNet then
        let cmds := privateJoinCmds cluster worker token
        if w.execOk cluster.address cmds then
          (worker1, [Event.tokenCreate cluster.address,
                     Event.joinCmds cluster.address cmds,
                     Event.labelNode worker.nodeName], false)
        else
          (worker1, [Event.tokenCreate cluster.address,
                     Event.joinCmds cluster.address cmds], true)
      else
        if w.sshOk worker.address then
          let cmds := directJoinCmds cluster worker token
          if w.execOk worker.address cmds then
            (worker1, [Event.tokenCreate cluster.address,
                       Event.joinCmds worker.address cmds,
                       Event.labelNode worker.nodeName], false)
          else
            (worker1, [Event.tokenCreate cluster.address,
                       Event.joinCmds worker.address cmds], true)
        else (worker1, [Event.tokenCreate cluster.address], false)

/-- Worker loop of `CreateCluster`: sequential, stopping at the first
fatal join failure; the remaining workers keep their previous state. -/
def processWorkers (w : World) (cluster : Cluster) :
    List Worker → List Worker × List Event × Bool
  | [] => ([], [], false)
  | wk :: rest =>
    let r := processWorker w cluster wk
    if r.2.2 then (r.1 :: rest, r.2.1, true)
    else
      let rs := processWorkers w cluster rest
      (r.1 :: rs.1, r.2.1 ++ rs.2.1, rs.2.2)

/-- One iteration of the cluster loop of `CreateCluster`: SSH to the
control-plane address, bootstrap when `done` is false (setting `done`,
saving the kubeconfig, labelling the node and applying optional
components), then run the worker loop. -/
def processCluster (w : World) (additional : List String) (cluster : Cluster) :
    Cluster × List Event × Bool :=
  if w.sshOk cluster.address then
    if cluster.done then
      let rs := processWorkers w cluster cluster.workers
      ({ cluster with workers := rs.1 }, rs.2.1, rs.2.2)
    else
      let baseCmds := baseClusterCommands cluster ++ additional
      if w.execOk cluster.address baseCmds then
        let cluster1 := { cluster with done := true }
        let masterEvents :=
          [Event.bootstrap cluster.address baseCmds,
           Event.kubeconfigFetch cluster.address cluster.nodeName,
           Event.labelNode cluster.nodeName] ++ optionalAppEvents w cluster
        let rs := processWorkers w cluster1 cluster1.workers
        ({ cluster1 with workers := rs.1 }, masterEvents ++ rs.2.1, rs.2.2)
      else (cluster, [Event.bootstrap cluster.address baseCmds], true)
  else (cluster, [], true)

/-- Model of `CreateCluster` (`cluster/create.go`).  Components of the
result: the Go return value (`none` models the `nil, err` return), the
final state of the in-place mutated cluster slice, and the event trace. -/
def CreateCluster (w : World) (additional : List String) :
    List Cluster → Option (List Cluster) × List Cluster × List Event
  | [] => (some [], [], [])
  | c :: rest =>
    let r := processCluster w additional c
    if r.2.2 then (none, r.1 :: rest, r.2.1)
    else
      let rs := CreateCluster w additional rest
      ((rs.1).map (fun l => r.1 :: l), r.1 :: rs.2.1, r.2.1 ++ rs.2.2)

/-- Worker reset step of `UninstallCluster`: a worker with `done = true`
gets the agent uninstall command (failures only logged) and its flag
cleared; others are untouched. -/
def uninstallWorker (wk : Worker) : Worker :=
  if wk.done then { wk with done := false } else wk

/-- Model of `UninstallCluster` (`cluster/uninstall.go`): per cluster, SSH
to the control-plane address (failure aborts the run with `nil, err`),
reset every `done` worker, then reset the cluster flag itself. -/
def UninstallCluster (w : World) :
    List Cluster → Option (List Cluster) × List Cluster
  | [] => (some [], [])
  | c :: rest =>
    if w.sshOk c.address then
      let c1 := { c with
        workers := c.workers.map uninstallWorker,
        done := if c.done then false else c.done }
      let rs := UninstallCluster w rest
      ((rs.1).map (fun l => c1 :: l), c1 :: rs.2)
    else (none, c :: rest)

/-! ### Done-flag relations and structural lemmas for the orchestrator -/

/-- Done flags may only go from false to true. -/
def workerDoneMono (a b : Worker) : Prop := a.done = true → b.done = true

/-- Cluster-level monotonicity: the cluster flag and every worker flag may
only go from false to true. -/
def clusterDoneMono (a b : Cluster) : Prop :=
  (a.done = true → b.done = true) ∧ List.Forall₂ workerDoneMono a.workers b.workers

/-- Done flags may only go from true to false. -/
def workerDoneAnti (a b : Worker) : Prop := b.done = true → a.done = true

/-- Cluster-level antitonicity for the uninstall pass. -/
def clusterDoneAnti (a b : Cluster) : Prop :=
  (b.done = true → a.done = true) ∧ List.Forall₂ workerDoneAnti a.workers b.workers

theorem forall₂_workerDoneMono_refl (l : List Worker) : List.Forall₂ workerDoneMono l l := by
  induction l with
  | nil => exact List.Forall₂.nil
  | cons x xs ih => exact List.Forall₂.cons (fun h => h) ih

theorem clusterDoneMono_refl (c : Cluster) : clusterDoneMono c c :=
  ⟨fun h => h, forall₂_workerDoneMono_refl c.workers⟩

theorem forall₂_clusterDoneMono_refl (l : List Cluster) : List.Forall₂ clusterDoneMono l l := by
  induction l with
  | nil => exact List.Forall₂.nil
  | cons x xs ih => exact List.Forall₂.cons (clusterDoneMono_refl x) ih

theorem forall₂_workerDoneAnti_refl (l : List Worker) : List.Forall₂ workerDoneAnti l l := by
  induction l with
  | nil => exact List.Forall₂.nil
  | cons x xs ih => exact List.Forall₂.cons (fun h => h) ih

theorem clusterDoneAnti_refl (c : Cluster) : clusterDoneAnti c c :=
  ⟨fun h => h, forall₂_workerDoneAnti_refl c.workers⟩

theorem forall₂_clusterDoneAnti_refl (l : List Cluster) : List.Forall₂ clusterDoneAnti l l := by
  induction l with
  | nil => exact List.Forall₂.nil
  | cons x xs ih => exact List.Forall₂.cons (clusterDoneAnti_refl x) ih

theorem processWorker_fst (w : World) (c : Cluster) (wk : Worker) :
    (processWorker w c wk).1 = if wk.done then wk else { wk with done := true } := by
  by_cases h : wk.done
  · simp [processWorker, h]
  · simp only [processWorker, h, if_false, Bool.false_eq_true]
    cases w.tokenResult c.address with
    | none => simp
    | some token =>
      by_cases hp : c.privateNet
      · by_cases he : w.execOk c.address (privateJoinCmds c wk token) <;> simp [hp, he]
      · by_cases hs : w.sshOk wk.address
        · by_cases he : w.execOk wk.address (directJoinCmds c wk token) <;> simp [hp, hs, he]
        · simp [hp, hs]

theorem processWorker_mono (w : World) (c : Cluster) (wk : Worker) :
    workerDoneMono wk (processWorker w c wk).1 := by
  rw [workerDoneMono, processWorker_fst]
  intro h
  simp [h]

theorem processWorkers_mono (w : World) (c : Cluster) (ws : List Worker) :
    List.Forall₂ workerDoneMono ws (processWorkers w c ws).1 := by
  induction ws with
  | nil => exact List.Forall₂.nil
  | cons wk rest ih =>
    rw [processWorkers]
    by_cases h : (processWorker w c wk).2.2
    · simp only [h, if_true]
      exact List.Forall₂.cons (processWorker_mono w c wk) (forall₂_workerDoneMono_refl rest)
    · simp only [h, if_false]
      exact List.Forall₂.cons (processWorker_mono w c wk) ih

theorem processCluster_mono (w : World) (additional : List String) (c : Cluster) :
    clusterDoneMono c (processCluster w additional c).1 := by
  rw [processCluster]
  by_cases hs : w.sshOk c.address
  · simp only [hs, if_true]
    by_cases hd : c.done
    · simp only [hd, if_true]
      exact ⟨fun h => h, processWorkers_mono w c c.workers⟩
    · simp only [hd, if_false, Bool.false_eq_true]
      by_cases he : w.execOk c.address (baseClusterCommands c ++ additional)
      · simp only [he, if_true]
        exact ⟨fun _ => rfl, processWorkers_mono w { c with done := true } c.workers⟩
      · simp only [he, if_false]
        exact clusterDoneMono_refl c
  · simp only [hs, if_false]
    exact clusterDoneMono_refl c

theorem CreateCluster_mono (w : World) (additional : List String) (clusters : List Cluster) :
    List.Forall₂ clusterDoneMono clusters (CreateCluster w additional clusters).2.1 := by
  induction clusters with
  | nil => exact List.Forall₂.nil
  | cons c rest ih =>
    rw [CreateCluster]
    by_cases h : (processCluster w additional c).2.2
    · simp only [h, if_true]
      exact List.Forall₂.cons (processCluster_mono w additional c) (forall₂_clusterDoneMono_refl rest)
    · simp only [h, if_false]
      exact List.Forall₂.cons (processCluster_mono w additional c) ih

theorem uninstallWorker_done (x : Worker) : (uninstallWorker x).done = false := by
  by_cases h : x.done <;> simp [uninstallWorker, h]

theorem forall₂_uninstallWorker_anti (l : List Worker) :
    List.Forall₂ workerDoneAnti l (l.map uninstallWorker) := by
  induction l with
  | nil => exact List.Forall₂.nil
  | cons x xs ih =>
    refine List.Forall₂.cons ?_ ih
    intro h
    rw [uninstallWorker_done] at h
    exact absurd h (by simp)

theorem UninstallCluster_anti (w : World) (clusters : List Cluster) :
    List.Forall₂ clusterDoneAnti clusters (UninstallCluster w clusters).2 := by
  induction clusters with
  | nil => exact List.Forall₂.nil
  | cons c rest ih =>
    rw [UninstallCluster]
    by_cases hs : w.sshOk c.address
    · simp only [hs, if_true]
      refine List.Forall₂.cons ⟨?_, forall₂_uninstallWorker_anti c.workers⟩ ih
      intro h
      by_cases hd : c.done <;> simp [hd] at h
    · simp only [hs, if_false]
      exact forall₂_clusterDoneAnti_refl (c :: rest)

theorem UninstallCluster_reset (w : World) (clusters : List Cluster)
    (h : ∀ c ∈ clusters, w.sshOk c.address = true) :
    ∀ c ∈ (UninstallCluster w clusters).2,
      c.done = false ∧ ∀ x ∈ c.workers, x.done = false := by
  induction clusters with
  | nil => intro c hc; simp [UninstallCluster] at hc
  | cons c rest ih =>
    intro d hd
    rw [UninstallCluster] at hd
    have hcssh : w.sshOk c.address = true := h c (by simp)
    simp only [hcssh, if_true, List.mem_cons] at hd
    rcases hd with hd | hd
    · subst hd
      constructor
      · by_cases hc : c.done <;> simp [hc]
      · intro x hx
        simp only [List.mem_map] at hx
        obtain ⟨y, _, hy⟩ := hx
        rw [← hy]
        exact uninstallWorker_done y
    · exact ih (fun a ha => h a (List.mem_cons_of_mem c ha)) d hd

/-- C8: within one orchestration pass, done flags are monotonic —
`CreateCluster` never turns a done flag from true back to false (for the
cluster and for every worker), while `UninstallCluster` only ever clears
them, and does clear them all for every cluster it reaches. -/
theorem C8_done_monotonic (w : World) (additional : List String) (clusters : List Cluster) :
    List.Forall₂ clusterDoneMono clusters (CreateCluster w additional clusters).2.1 ∧
    List.Forall₂ clusterDoneAnti clusters (UninstallCluster w clusters).2 ∧
    ((∀ c ∈ clusters, w.sshOk c.address = true) →
      ∀ c ∈ (UninstallCluster w clusters).2,
        c.done = false ∧ ∀ x ∈ c.workers, x.done = false) :=
  ⟨CreateCluster_mono w additional clusters,
   UninstallCluster_anti w clusters,
   fun h => UninstallCluster_reset w clusters h⟩

/-! ### Concrete orchestration scenarios -/

/-- Worker that has not joined yet. -/
def wkPending : Worker :=
  { address := "10.0.0.2", user := "root", password := "pw",
    nodeName := "worker-1", labels := [], done := false }

/-- Worker already joined. -/
def wkJoined : Worker := { wkPending with done := true }

/-- Sample application sub-config. -/
def giteaCfg : Gitea := { pg := { username := "gu", password := "gp", dbName := "gdb" } }

/-- Cluster whose control plane and single worker are both done. -/
def cAllDone : Cluster :=
  { address := "10.0.0.1", user := "root", password := "pw",
    nodeName := "master-1", labels := [], done := true,
    domain := "example.com", gitea := giteaCfg, privateNet := false,
    workers := [wkJoined] }

/-- Cluster done, one worker pending: the partial-resume situation. -/
def cResume : Cluster := { cAllDone with workers := [wkPending] }

/-- Pending cluster at address 10.0.0.1 with no workers. -/
def cPendingA : Cluster := { cAllDone with done := false, workers := [] }

/-- Pending cluster at a different address with no workers. -/
def cPendingB : Cluster :=
  { cAllDone with
    address := "10.0.0.3"
    nodeName := "master-2"
    done := false
    workers := [] }

/-- World where every remote operation succeeds and all flags are off. -/
def wAll : World :=
  { sshOk := fun _ => true, execOk := fun _ _ => true,
    tokenResult := fun _ => some "tok", flags := fun _ => false }

/-- World where the join-token fetch fails on every control plane. -/
def wTokenFail : World := { wAll with tokenResult := fun _ => none }

/-- World where command execution fails on host 10.0.0.1 only. -/
def wBootFail : World := { wAll with execOk := fun h _ => !(h == "10.0.0.1") }

/-- C1 counterexample: re-running `CreateCluster` on a state where the
cluster and its worker both have `done = true` emits no events at all —
in particular the kubeconfig is NOT re-fetched, contradicting the claim
that it is re-fetched on every run regardless of the `done` state.  (The
run itself succeeds and returns the unchanged list.) -/
theorem C1_counterexample :
    (CreateCluster wAll [] [cAllDone]).2.2 = [] ∧
    (CreateCluster wAll [] [cAllDone]).1 = some [cAllDone] := by
  decide

/-- Helper: the worker loop is a no-op on a list of already-done workers. -/
theorem processWorkers_allDone (w : World) (c : Cluster) :
    ∀ ws : List Worker, (∀ x ∈ ws, x.done = true) →
      processWorkers w c ws = (ws, [], false) := by
  intro ws
  induction ws with
  | nil => intro _; simp [processWorkers]
  | cons x xs ih =>
    intro h
    have hx : x.done = true := h x (by simp)
    have ih2 := ih (fun y hy => h y (List.mem_cons_of_mem x hy))
    simp [processWorkers, processWorker, hx, ih2]

/-- C1 amended: on a state where every cluster and every worker has
`done = true`, `CreateCluster` issues zero bootstrap/join commands and
performs zero kubeconfig fetches (the event trace is empty), leaving the
cluster list unchanged; the kubeconfig is re-fetched only on the bootstrap
path of a not-yet-done cluster. -/
theorem C1_amended (w : World) (additional : List String) (clusters : List Cluster)
    (h : ∀ c ∈ clusters, c.done = true ∧ ∀ x ∈ c.workers, x.done = true) :
    (CreateCluster w additional clusters).2.1 = clusters ∧
    (CreateCluster w additional clusters).2.2 = [] := by
  induction clusters with
  | nil => simp [CreateCluster]
  | cons c rest ih =>
    have hc : c.done = true := (h c (by simp)).1
    have hw : ∀ x ∈ c.workers, x.done = true := (h c (by simp)).2
    have hws := processWorkers_allDone w c c.workers hw
    have hrest := ih (fun a ha => h a (List.mem_cons_of_mem c ha))
    rw [CreateCluster]
    by_cases hs : w.sshOk c.address
    · simp [processCluster, hs, hc, hws, hrest.1, hrest.2]
    · simp [processCluster, hs]

/-- Witness for C1 amended at a concrete all-done fleet. -/
theorem C1_amended_witness :
    (CreateCluster wAll [] [cAllDone]).2.1 = [cAllDone] ∧
    (CreateCluster wAll [] [cAllDone]).2.2 = [] :=
  C1_amended wAll [] [cAllDone] (by decide)

/-- C2: evaluation of the worker-resume scenario in which the join-token
fetch fails.  The source sets the worker `done` flag BEFORE fetching the
token, so after the failed fetch (no join commands were ever issued) the
worker is left with `done = true` and the run returns successfully —
the worker would be skipped forever on the next run. -/
theorem C2_done_set_before_join :
    (CreateCluster wTokenFail [] [cResume]).2.2 = [Event.tokenCreate "10.0.0.1"] ∧
    (CreateCluster wTokenFail [] [cResume]).1 =
      some [{ cResume with workers := [{ wkPending with done := true }] }] := by
  decide

/-- C3 counterexample: with two pending clusters and bootstrap failing on
the first one, `CreateCluster` returns `none` (the Go `nil, err` return)
instead of the updated cluster list, and the event trace contains only the
failed bootstrap of the first cluster — the second cluster is never
processed, contradicting the claim that the remaining clusters still are. -/
theorem C3_counterexample :
    (CreateCluster wBootFail [] [cPendingA, cPendingB]).1 = none ∧
    (CreateCluster wBootFail [] [cPendingA, cPendingB]).2.2 =
      [Event.bootstrap "10.0.0.1" (baseClusterCommands cPendingA ++ [])] ∧
    (CreateCluster wBootFail [] [cPendingA, cPendingB]).2.1 = [cPendingA, cPendingB] := by
  decide

/-- Helper: the worker loop skips over a leading run of already-done
workers, leaving them in place and taking its outcome from the rest. -/
theorem processWorkers_append_allDone (w : World) (c : Cluster)
    (ws1 ws2 : List Worker) (h : ∀ x ∈ ws1, x.done = true) :
    processWorkers w c (ws1 ++ ws2) =
      ((ws1 ++ (processWorkers w c ws2).1),
       (processWorkers w c ws2).2.1,
       (processWorkers w c ws2).2.2) := by
  induction ws1 with
  | nil => simp
  | cons x xs ih =>
    have hx : x.done = true := h x (by simp)
    have ih2 := ih (fun y hy => h y (List.mem_cons_of_mem x hy))
    simp [processWorkers, processWorker, hx, ih2]

/-- C3 amended: when a required bootstrap or join command fails for one
cluster, `CreateCluster` aborts the entire run at that point: it returns
`none` together with the error, and the remaining clusters in the list
are not processed (no further commands are issued).  Required-path
failure halts the whole fleet, not just the affected cluster; only
optional-component failures are isolated.  The three cases are the
bootstrap-command failure, the relayed join failure on a private network,
and the direct join failure. -/
theorem C3_amended (w : World) (additional : List String) (c : Cluster)
    (rest : List Cluster) :
    (w.sshOk c.address = true → c.done = false →
      w.execOk c.address (baseClusterCommands c ++ additional) = false →
      (CreateCluster w additional (c :: rest)).1 = none ∧
      (CreateCluster w additional (c :: rest)).2.1 = c :: rest ∧
      (CreateCluster w additional (c :: rest)).2.2 =
        [Event.bootstrap c.address (baseClusterCommands c ++ additional)]) ∧
    (∀ (ws1 ws2 : List Worker) (wk : Worker) (token : String),
      w.sshOk c.address = true → c.done = true →
      c.workers = ws1 ++ wk :: ws2 → (∀ x ∈ ws1, x.done = true) →
      wk.done = false → w.tokenResult c.address = some token →
      c.privateNet = true →
      w.execOk c.address (privateJoinCmds c wk token) = false →
      (CreateCluster w additional (c :: rest)).1 = none ∧
      (CreateCluster w additional (c :: rest)).2.1 =
        { c with workers := ws1 ++ { wk with done := true } :: ws2 } :: rest ∧
      (CreateCluster w additional (c :: rest)).2.2 =
        [Event.tokenCreate c.address,
         Event.joinCmds c.address (privateJoinCmds c wk token)]) ∧
    (∀ (ws1 ws2 : List Worker) (wk : Worker) (token : String),
      w.sshOk c.address = true → c.done = true →
      c.workers = ws1 ++ wk :: ws2 → (∀ x ∈ ws1, x.done = true) →
      wk.done = false → w.tokenResult c.address = some token →
      c.privateNet = false → w.sshOk wk.address = true →
      w.execOk wk.address (directJoinCmds c wk token) = false →
      (CreateCluster w additional (c :: rest)).1 = none ∧
      (CreateCluster w additional (c :: rest)).2.1 =
        { c with workers := ws1 ++ { wk with done := true } :: ws2 } :: rest ∧
      (CreateCluster w additional (c :: rest)).2.2 =
        [Event.tokenCreate c.address,
         Event.joinCmds wk.address (directJoinCmds c wk token)]) := by
  refine ⟨?_, ?_, ?_⟩
  · intro hssh hdone hexec
    rw [CreateCluster]
    simp [processCluster, hssh, hdone, hexec]
  · intro ws1 ws2 wk token hssh hdone hcw hws1 hwk htok hpriv hexec
    have hpw : processWorker w c wk =
        ({ wk with done := true },
         [Event.tokenCreate c.address,
          Event.joinCmds c.address (privateJoinCmds c wk token)], true) := by
      simp [processWorker, hwk, htok, hpriv, hexec]
    have hpws : processWorkers w c c.workers =
        (ws1 ++ { wk with done := true } :: ws2,
         [Event.tokenCreate c.address,
          Event.joinCmds c.address (privateJoinCmds c wk token)], true) := by
      rw [hcw, processWorkers_append_allDone w c ws1 (wk :: ws2) hws1]
      simp [processWorkers, hpw]
    rw [CreateCluster]
    simp [processCluster, hssh, hdone, hpws]
  · intro ws1 ws2 wk token hssh hdone hcw hws1 hwk htok hpriv hwssh hexec
    have hpw : processWorker w c wk =
        ({ wk with done := true },
         [Event.tokenCreate c.address,
          Event.joinCmds wk.address (directJoinCmds c wk token)], true) := by
      simp [processWorker, hwk, htok, hpriv, hwssh, hexec]
    have hpws : processWorkers w c c.workers =
        (ws1 ++ { wk with done := true } :: ws2,
         [Event.tokenCreate c.address,
          Event.joinCmds wk.address (directJoinCmds c wk token)], true) := by
      rw [hcw, processWorkers_append_allDone w c ws1 (wk :: ws2) hws1]
      simp [processWorkers, hpw]
    rw [CreateCluster]
    simp [processCluster, hssh, hdone, hpws]

/-- World where every command batch fails but dials and token fetches
succeed. -/
def wJoinFail : World := { wAll with execOk := fun _ _ => false }

/-- The resume cluster on a private network. -/
def cResumePrivate : Cluster := { cResume with privateNet := true }

/-- Witness for C3 amended: a concrete bootstrap failure and a concrete
relayed join failure, each aborting the whole run with `none` and leaving
the second cluster untouched and unprocessed. -/
theorem C3_amended_witness :
    ((CreateCluster wBootFail [] (cPendingA :: [cPendingB])).1 = none ∧
     (CreateCluster wBootFail [] (cPendingA :: [cPendingB])).2.1 = cPendingA :: [cPendingB] ∧
     (CreateCluster wBootFail [] (cPendingA :: [cPendingB])).2.2 =
       [Event.bootstrap cPendingA.address (baseClusterCommands cPendingA ++ [])]) ∧
    ((CreateCluster wJoinFail [] (cResumePrivate :: [cPendingB])).1 = none ∧
     (CreateCluster wJoinFail [] (cResumePrivate :: [cPendingB])).2.1 =
       { cResumePrivate with workers := [] ++ { wkPending with done := true } :: [] } :: [cPendingB] ∧
     (CreateCluster wJoinFail [] (cResumePrivate :: [cPendingB])).2.2 =
       [Event.tokenCreate cResumePrivate.address,
        Event.joinCmds cResumePrivate.address
          (privateJoinCmds cResumePrivate wkPending "tok")]) :=
  ⟨(C3_amended wBootFail [] cPendingA [cPendingB]).1 (by decide) (by decide) (by decide),
   (C3_amended wJoinFail [] cResumePrivate [cPendingB]).2.1 [] [] wkPending "tok"
     (by decide) (by decide) rfl (by decide) (by decide) (by decide) (by decide) (by decide)⟩

/-- Witness for C8 at a concrete fleet. -/
theorem C8_done_monotonic_witness :
    List.Forall₂ clusterDoneMono [cResume] (CreateCluster wAll [] [cResume]).2.1 ∧
    (∀ c ∈ (UninstallCluster wAll [cResume]).2,
      c.done = false ∧ ∀ x ∈ c.workers, x.done = false) :=
  ⟨(C8_done_monotonic wAll [] [cResume]).1,
   (C8_done_monotonic wAll [] [cResume]).2.2 (by decide)⟩

/-! ### Generic apply engine (`cluster/manifest.go`, `applyYAMLManifest`)

The per-document loop decodes each document, resolves its REST mapping via
discovery, defaults the namespace, and issues a single `Create` call.  The
Kubernetes side is modelled by `ApplyEnv` (decode result, mapping success,
server accepting a create) and the cluster content by the list of existing
`(namespace, object)` pairs; the server reports already-exists exactly
when the pair is present. -/

/-- Decoded unstructured object: its identity and its namespace field
(empty string when the document sets none). -/
structure K8sObj where
  key : String
  ns : String
deriving DecidableEq

/-- Write operations offered by the dynamic client; the loop in the source
only ever issues `create`. -/
inductive WriteOp where
  | create (ns : String) (obj : K8sObj)
  | patch (ns : String) (obj : K8sObj)
  | update (ns : String) (obj : K8sObj)
deriving DecidableEq

/-- Per-document log lines emitted by the loop (each `continue`s). -/
inductive ApplyLog where
  | decodeError (doc : String)
  | mappingError (doc : String)
  | applyError (ns : String) (obj : K8sObj)
deriving DecidableEq

/-- Oracle for the Kubernetes-facing steps of the loop. -/
structure ApplyEnv where
  decode : String → Option K8sObj
  mapOk : K8sObj → Bool
  createOk : String → K8sObj → Bool

/-- Existing objects on the cluster, as `(namespace, object key)` pairs. -/
abbrev ClusterObjects := List (String × String)

/-- Namespace defaulting of the loop: empty becomes `"default"`. -/
def defaultNs (ns : String) : String := if ns = "" then "default" else ns

/-- One iteration of the document loop of `applyYAMLManifest`: returns the
new cluster content, the log lines, and the issued write operations.
An already-exists answer from the create is not an error (the source
checks `errors.IsAlreadyExists`); any other failure is logged and the
document is skipped. -/
def applyDoc (env : ApplyEnv) (st : ClusterObjects) (doc : String) :
    ClusterObjects × List ApplyLog × List WriteOp :=
  match env.decode doc with
  | none => (st, [ApplyLog.decodeError doc], [])
  | some obj =>
    if env.mapOk obj then
      let ns := defaultNs obj.ns
      if (ns, obj.key) ∈ st then
        (st, [], [WriteOp.create ns obj])
      else if env.createOk ns obj then
        ((ns, obj.key) :: st, [], [WriteOp.create ns obj])
      else
        (st, [ApplyLog.applyError ns obj], [WriteOp.create ns obj])
    else (st, [ApplyLog.mappingError doc], [])

/-- The document loop of `applyYAMLManifest`: strictly sequential, no early
exit — the function returns `nil` after the loop no matter how many
documents failed. -/
def applyDocs (env : ApplyEnv) (st : ClusterObjects) :
    List String → ClusterObjects × List ApplyLog × List WriteOp
  | [] => (st, [], [])
  | doc :: rest =>
    let r := applyDoc env st doc
    let rs := applyDocs env r.1 rest
    (rs.1, r.2.1 ++ rs.2.1, r.2.2 ++ rs.2.2)

/-- Model of `applyYAMLManifest` from the manifest content onward: apply
the substitutions, split into documents, run the document loop.  Fetching
the content (file or HTTP) and building the clients are external effects
preceding the loop. -/
def applyYAMLManifest (env : ApplyEnv) (st : ClusterObjects) (content : String)
    (substitutions : List (String × String)) :
    ClusterObjects × List ApplyLog × List WriteOp :=
  applyDocs env st (splitYAMLDocs (applySubstitutions content substitutions))

/-- C5: for a document that decodes and maps, the only write issued is a
single create in the defaulted namespace (empty namespace becomes
`"default"`); an already-exists answer is success — no log line, state
unchanged; when the server accepts creates of this object, applying the
document twice reports success both times (the second via the
already-exists path); any other per-document failure — create rejection,
decode error, discovery-mapping error — is logged and that document is
skipped with the state unchanged; and the loop continues with the
remaining documents after every outcome. -/
theorem C5_applyYAMLManifest_create_semantics (env : ApplyEnv) (st : ClusterObjects)
    (doc : String) (obj : K8sObj)
    (hd : env.decode doc = some obj) (hm : env.mapOk obj = true) :
    (applyDoc env st doc).2.2 = [WriteOp.create (defaultNs obj.ns) obj] ∧
    (obj.ns = "" → (applyDoc env st doc).2.2 = [WriteOp.create "default" obj]) ∧
    ((defaultNs obj.ns, obj.key) ∈ st →
      applyDoc env st doc = (st, [], [WriteOp.create (defaultNs obj.ns) obj])) ∧
    (env.createOk (defaultNs obj.ns) obj = true →
      (applyDoc env st doc).2.1 = [] ∧
      (applyDoc env (applyDoc env st doc).1 doc).2.1 = []) ∧
    (env.createOk (defaultNs obj.ns) obj = false →
      (defaultNs obj.ns, obj.key) ∉ st →
      applyDoc env st doc =
        (st, [ApplyLog.applyError (defaultNs obj.ns) obj],
          [WriteOp.create (defaultNs obj.ns) obj])) ∧
    (∀ d : String, env.decode d = none →
      applyDoc env st d = (st, [ApplyLog.decodeError d], [])) ∧
    (∀ (d : String) (o : K8sObj), env.decode d = some o → env.mapOk o = false →
      applyDoc env st d = (st, [ApplyLog.mappingError d], [])) ∧
    (∀ rest : List String,
      applyDocs env st (doc :: rest) =
        ((applyDocs env (applyDoc env st doc).1 rest).1,
         (applyDoc env st doc).2.1 ++ (applyDocs env (applyDoc env st doc).1 rest).2.1,
         (applyDoc env st doc).2.2 ++ (applyDocs env (applyDoc env st doc).1 rest).2.2)) := by
  refine ⟨?_, ?_, ?_, ?_, ?_, ?_, ?_, ?_⟩
  · by_cases hmem : (defaultNs obj.ns, obj.key) ∈ st
    · simp [applyDoc, hd, hm, hmem]
    · by_cases hc : env.createOk (defaultNs obj.ns) obj <;>
        simp [applyDoc, hd, hm, hmem, hc]
  · intro hns
    have h1 : (applyDoc env st doc).2.2 = [WriteOp.create (defaultNs obj.ns) obj] := by
      by_cases hmem : (defaultNs obj.ns, obj.key) ∈ st
      · simp [applyDoc, hd, hm, hmem]
      · by_cases hc : env.createOk (defaultNs obj.ns) obj <;>
          simp [applyDoc, hd, hm, hmem, hc]
    rw [h1]
    simp [defaultNs, hns]
  · intro hmem
    simp [applyDoc, hd, hm, hmem]
  · intro hc
    by_cases hmem : (defaultNs obj.ns, obj.key) ∈ st
    · constructor
      · simp [applyDoc, hd, hm, hmem]
      · simp [applyDoc, hd, hm, hmem]
    · constructor
      · simp [applyDoc, hd, hm, hmem, hc]
      · simp [applyDoc, hd, hm, hmem, hc]
  · intro hc hmem
    simp [applyDoc, hd, hm, hmem, hc]
  · intro d hdn
    simp [applyDoc, hdn]
  · intro d o hdo hmo
    simp [applyDoc, hdo, hmo]
  · intro rest
    rfl

/-- Concrete apply oracle: one decodable document, mapping and creates
always succeed. -/
def envApply : ApplyEnv :=
  { decode := fun d => if d = "kind: ConfigMap" then some { key := "cm1", ns := "" } else none,
    mapOk := fun _ => true,
    createOk := fun _ _ => true }

/-- Witness for C5 at a concrete document applied twice to an empty
cluster. -/
theorem C5_witness :
    (applyDoc envApply [] "kind: ConfigMap").2.2 =
      [WriteOp.create "default" { key := "cm1", ns := "" }] ∧
    (applyDoc envApply (applyDoc envApply [] "kind: ConfigMap").1 "kind: ConfigMap").2.1 = [] :=
  have h := C5_applyYAMLManifest_create_semantics envApply [] "kind: ConfigMap"
    { key := "cm1", ns := "" } (by decide) (by decide)
  ⟨h.2.1 rfl, (h.2.2.2.1 (by decide)).2⟩

/-! ### SSH connection (`cluster/ssh.go`, `sshConnect`)

`sshConnect` walks the operator key directory, collecting a public-key
auth method for every private-key file that has a companion `.pub` file,
can be read, and parses; `.pub` files, directories, unreadable files and
unparsable keys are silently skipped.  A non-empty password is appended as
a fallback method.  With zero methods it returns an error before the
`ssh.Dial` call. -/

/-- One entry found by the directory walk, with the outcomes of the checks
the source applies to it. -/
structure SshFile where
  name : String
  isDir : Bool
  hasPub : Bool
  readOk : Bool
  parseOk : Bool
deriving DecidableEq

/-- Auth methods assembled by `sshConnect`. -/
inductive AuthMethod where
  | publicKey (keyName : String)
  | password (pw : String)
deriving DecidableEq

/-- Result of `sshConnect`: either the zero-methods error, or the dial
attempt with the assembled client config. -/
inductive SshOutcome where
  | authError
  | dial (host userName : String) (methods : List AuthMethod)
deriving DecidableEq

/-- A walk entry contributes a key exactly when it is a file, not a
`.pub` file, has a companion `.pub`, is readable and parses. -/
def usableKey (f : SshFile) : Bool :=
  !f.isDir && !(goEndsWith f.name ".pub") && f.hasPub && f.readOk && f.parseOk

/-- Auth method assembly of `sshConnect`: keys in walk order, then the
password fallback when the password is non-empty. -/
def collectAuthMethods (files : List SshFile) (password : String) : List AuthMethod :=
  (files.filter usableKey).map (fun f => AuthMethod.publicKey f.name)
    ++ (if password = "" then [] else [AuthMethod.password password])

/-- Model of `sshConnect`: fail with the authentication error when zero
methods were assembled, otherwise dial with them. -/
def sshConnect (files : List SshFile) (userName password host : String) : SshOutcome :=
  let methods := collectAuthMethods files password
  if methods = [] then SshOutcome.authError
  else SshOutcome.dial host userName methods

/-- C6: `sshConnect` silently skips `.pub` files and unparsable keys (an
unusable walk entry never changes the outcome), appends a non-empty
password as the last, fallback auth method, and with zero parsable keys
and an empty password fails with the authentication error — which by
construction precedes any dial. -/
theorem C6_sshConnect_auth (files : List SshFile) (f : SshFile)
    (userName password host : String) :
    (usableKey f = false →
      sshConnect (f :: files) userName password host =
        sshConnect files userName password host) ∧
    (goEndsWith f.name ".pub" = true → usableKey f = false) ∧
    (f.parseOk = false → usableKey f = false) ∧
    (password ≠ "" →
      collectAuthMethods files password =
        collectAuthMethods files "" ++ [AuthMethod.password password]) ∧
    (files.filter usableKey = [] →
      sshConnect files userName "" host = SshOutcome.authError) := by
  refine ⟨?_, ?_, ?_, ?_, ?_⟩
  · intro h
    simp [sshConnect, collectAuthMethods, h]
  · intro h
    simp [usableKey, h]
  · intro h
    simp [usableKey, h]
  · intro h
    simp [collectAuthMethods, h]
  · intro h
    simp [sshConnect, collectAuthMethods, h]

/-- Concrete key directory: a `.pub` file and an unparsable key. -/
def sshFilesNone : List SshFile :=
  [ { name := "id_rsa.pub", isDir := false, hasPub := false, readOk := true, parseOk := false },
    { name := "garbled", isDir := false, hasPub := true, readOk := true, parseOk := false } ]

/-- Witness for C6: with the concrete directory above and an empty
password, `sshConnect` fails with the authentication error. -/
theorem C6_sshConnect_auth_witness :
    sshConnect sshFilesNone "root" "" "10.0.0.1" = SshOutcome.authError ∧
    collectAuthMethods sshFilesNone "pw" =
      collectAuthMethods sshFilesNone "" ++ [AuthMethod.password "pw"] :=
  ⟨(C6_sshConnect_auth sshFilesNone
      { name := "x", isDir := true, hasPub := false, readOk := false, parseOk := false }
      "root" "" "10.0.0.1").2.2.2.2 (by decide),
   (C6_sshConnect_auth sshFilesNone
      { name := "x", isDir := true, hasPub := false, readOk := false, parseOk := false }
      "root" "pw" "10.0.0.1").2.2.2.1 (by decide)⟩

/-! ### Chart lifecycle (`cluster/helm_native.go`, `installHelmChartNative`)

After the repository bookkeeping, the function lists existing releases
(`action.NewList` with `All`), sets `found` when one matches the requested
name and namespace, and runs `action.NewInstall` when not found or
`action.NewUpgrade` otherwise; each path carries its own timeout, atomic
and namespace-creation settings.  A failed listing leaves `found` false.
Durations are in nanoseconds as in Go `time.Duration`: the install path
sets `600 * time.Second`, the upgrade path sets the bare literal `600`. -/

/-- A deployed release as returned by the lister. -/
structure HelmRelease where
  name : String
  ns : String
deriving DecidableEq

/-- Configuration of the install path. -/
structure InstallConfig where
  releaseName : String
  ns : String
  version : String
  atomic : Bool
  wait : Bool
  timeoutNanos : Nat
  createNamespace : Bool
deriving DecidableEq

/-- Configuration of the upgrade path. -/
structure UpgradeConfig where
  ns : String
  version : String
  installIfMissing : Bool
  atomic : Bool
  wait : Bool
  timeoutNanos : Nat
deriving DecidableEq

/-- The action `installHelmChartNative` ends up running. -/
inductive HelmDecision where
  | installPath (cfg : InstallConfig)
  | upgradePath (cfg : UpgradeConfig)
deriving DecidableEq

/-- The `found` flag: false when the listing failed (`err != nil`), else
whether some release matches the requested name and namespace. -/
def releaseFound (rels : Option (List HelmRelease)) (releaseName ns : String) : Bool :=
  match rels with
  | none => false
  | some rs => rs.any (fun r => r.name == releaseName && r.ns == ns)

/-- Decision logic of `installHelmChartNative` (the part after chart
resolution): install when no matching release was found, upgrade
otherwise, each with its own configuration as set in the source. -/
def installHelmChartNative (rels : Option (List HelmRelease))
    (releaseName ns chartVersion : String) (helmAtomic : Bool) : HelmDecision :=
  if !(releaseFound rels releaseName ns) then
    HelmDecision.installPath
      { releaseName := releaseName
        ns := ns
        version := chartVersion
        atomic := helmAtomic
        wait := true
        timeoutNanos := 600 * 1000000000
        createNamespace := true }
  else
    HelmDecision.upgradePath
      { ns := ns
        version := chartVersion
        installIfMissing := false
        atomic := helmAtomic
        wait := true
        timeoutNanos := 600 }

/-- C7: with no release matching the requested name and namespace the
install path is invoked, with a matching release present the upgrade path
is invoked, and the two paths carry independent configuration — notably
their timeouts differ (600 s vs the bare literal 600 ns) while each owns
its atomic/rollback flag. -/
theorem C7_install_vs_upgrade (rels : List HelmRelease)
    (releaseName ns chartVersion : String) (helmAtomic : Bool) :
    ((∀ r ∈ rels, ¬(r.name = releaseName ∧ r.ns = ns)) →
      installHelmChartNative (some rels) releaseName ns chartVersion helmAtomic =
        HelmDecision.installPath
          { releaseName := releaseName
            ns := ns
            version := chartVersion
            atomic := helmAtomic
            wait := true
            timeoutNanos := 600 * 1000000000
            createNamespace := true }) ∧
    ((∃ r ∈ rels, r.name = releaseName ∧ r.ns = ns) →
      installHelmChartNative (some rels) releaseName ns chartVersion helmAtomic =
        HelmDecision.upgradePath
          { ns := ns
            version := chartVersion
            installIfMissing := false
            atomic := helmAtomic
            wait := true
            timeoutNanos := 600 }) := by
  constructor
  · intro h
    have hf : releaseFound (some rels) releaseName ns = false := by
      simp only [releaseFound, List.any_eq_false]
      intro r hr
      have := h r hr
      simp only [Bool.and_eq_true, beq_iff_eq]
      intro hcontra
      exact this ⟨hcontra.1, hcontra.2⟩
    simp [installHelmChartNative, hf]
  · intro h
    obtain ⟨r, hr, hname, hns⟩ := h
    have hf : releaseFound (some rels) releaseName ns = true := by
      simp only [releaseFound, List.any_eq_true]
      exact ⟨r, hr, by simp [hname, hns]⟩
    simp [installHelmChartNative, hf]

/-- Witness for C7: empty release list installs, a matching release
upgrades. -/
theorem C7_install_vs_upgrade_witness :
    installHelmChartNative (some []) "kube-prom-stack" "monitoring" "35.5.1" true =
      HelmDecision.installPath
        { releaseName := "kube-prom-stack"
          ns := "monitoring"
          version := "35.5.1"
          atomic := true
          wait := true
          timeoutNanos := 600 * 1000000000
          createNamespace := true } ∧
    installHelmChartNative (some [{ name := "kube-prom-stack", ns := "monitoring" }])
        "kube-prom-stack" "monitoring" "35.5.1" true =
      HelmDecision.upgradePath
        { ns := "monitoring"
          version := "35.5.1"
          installIfMissing := false
          atomic := true
          wait := true
          timeoutNanos := 600 } :=
  ⟨(C7_install_vs_upgrade [] "kube-prom-stack" "monitoring" "35.5.1" true).1 (by decide),
   (C7_install_vs_upgrade [{ name := "kube-prom-stack", ns := "monitoring" }]
      "kube-prom-stack" "monitoring" "35.5.1" true).2
     ⟨{ name := "kube-prom-stack", ns := "monitoring" }, by decide, by decide, by decide⟩⟩

/-! ### Kubeconfig repatriation (`cluster/kubeconfig.go`)

Go maps keyed by strings are modelled as association lists; with the
single-entry configs the claims are about, iteration order of a Go map is
irrelevant.  `load` stands for `clientcmd.Load`, which parses the YAML
text into the config structure. -/

/-- Association-list lookup, modelling Go map indexing. -/
def mapLookup {α : Type} : List (String × α) → String → Option α
  | [], _ => none
  | kv :: rest, k => if kv.1 = k then some kv.2 else mapLookup rest k

/-- Association-list insert-or-replace, modelling Go map assignment. -/
def mapInsert {α : Type} : List (String × α) → String → α → List (String × α)
  | [], k, v => [(k, v)]
  | kv :: rest, k, v => if kv.1 = k then (k, v) :: rest else kv :: mapInsert rest k v

/-- Association-list deletion, modelling Go `delete`. -/
def mapErase {α : Type} (m : List (String × α)) (k : String) : List (String × α) :=
  m.filter (fun kv => !(kv.1 == k))

/-- Model of `getFirstKey`: the first key the range loop yields, or the
empty string for an empty map. -/
def getFirstKey {α : Type} : List (String × α) → String
  | [] => ""
  | kv :: _ => kv.1

/-- The `patchKey` step of `patchKubeConfigKeys`: when the first key is
neither empty nor already the node name, move its entry to the node name
and delete the old key (assignment first, then deletion, as in the
source). -/
def renameFirstKey {α : Type} (m : List (String × α)) (nodeName : String) :
    List (String × α) :=
  let oldKey := getFirstKey m
  if oldKey ≠ "" ∧ oldKey ≠ nodeName then
    match mapLookup m oldKey with
    | some v => mapErase (mapInsert m nodeName v) oldKey
    | none => m
  else m

/-- Context entry: its cluster and user references
(`ctx.Cluster` / `ctx.AuthInfo`). -/
structure KContext where
  cluster : String
  authInfo : String
deriving DecidableEq

/-- The parsed kubeconfig structure (`clientcmdapi.Config`); cluster and
user entries are kept abstract as their serialized payloads. -/
structure KubeConfig where
  clusters : List (String × String)
  authInfos : List (String × String)
  contexts : List (String × KContext)
  currentContext : String
deriving DecidableEq

/-- Model of `patchKubeConfigKeys`: rename the first cluster, user and
context entries to the node name, point the context at the renamed
cluster and user, and set the active context. -/
def patchKubeConfigKeys (config : KubeConfig) (nodeName : String) : KubeConfig :=
  let cls := renameFirstKey config.clusters nodeName
  let aus := renameFirstKey config.authInfos nodeName
  let cxs := renameFirstKey config.contexts nodeName
  let cxs2 :=
    match mapLookup cxs nodeName with
    | some _ => mapInsert cxs nodeName { cluster := nodeName, authInfo := nodeName }
    | none => cxs
  { clusters := cls, authInfos := aus, contexts := cxs2, currentContext := nodeName }

/-- Model of `parseAndPatchKubeConfig`: rewrite every occurrence of the
loopback address to the cluster address in the raw text, parse, then patch
the keys; a parse failure is logged and surfaces as `none`. -/
def parseAndPatchKubeConfig (load : String → Option KubeConfig)
    (kubeConfig address nodeName : String) : Option KubeConfig :=
  match load (goReplace kubeConfig "127.0.0.1" address) with
  | none => none
  | some config => some (patchKubeConfigKeys config nodeName)

theorem renameFirstKey_singleton {α : Type} (k : String) (v : α) (n : String)
    (hk : k ≠ "") : renameFirstKey [(k, v)] n = [(n, v)] := by
  by_cases hkn : k = n
  · subst hkn
    simp [renameFirstKey, getFirstKey]
  · simp [renameFirstKey, getFirstKey, hk, hkn, mapLookup, mapInsert, mapErase,
      Ne.symm hkn]

/-- C9: on a fetched kubeconfig whose parse yields exactly one cluster,
one user and one context entry (under nonempty generic names),
`parseAndPatchKubeConfig` rewrites every `127.0.0.1` occurrence to the
cluster address before parsing and renames all three entries to the node
name, including the context's internal cluster/user references and the
active-context pointer.  The result is what `writeKubeConfigToFile`
persists under the run-id/node-name path. -/
theorem C9_parseAndPatch_rename (load : String → Option KubeConfig)
    (raw address nodeName : String) (cfg : KubeConfig)
    (cv uv : String) (xv : KContext) (kc ku kx : String)
    (hload : load (goReplace raw "127.0.0.1" address) = some cfg)
    (hc : cfg.clusters = [(kc, cv)]) (hu : cfg.authInfos = [(ku, uv)])
    (hx : cfg.contexts = [(kx, xv)])
    (hkc : kc ≠ "") (hku : ku ≠ "") (hkx : kx ≠ "") :
    parseAndPatchKubeConfig load raw address nodeName =
      some { clusters := [(nodeName, cv)]
             authInfos := [(nodeName, uv)]
             contexts := [(nodeName, { cluster := nodeName, authInfo := nodeName })]
             currentContext := nodeName } := by
  simp only [parseAndPatchKubeConfig, hload]
  rw [patchKubeConfigKeys, hc, hu, hx,
    renameFirstKey_singleton kc cv nodeName hkc,
    renameFirstKey_singleton ku uv nodeName hku,
    renameFirstKey_singleton kx xv nodeName hkx]
  simp [mapLookup, mapInsert]

/-- Concrete parsed single-entry kubeconfig under the generic name. -/
def kubeCfgDemo : KubeConfig :=
  { clusters := [("default", "server: https://1.2.3.4:6443")]
    authInfos := [("default", "client-cert")]
    contexts := [("default", { cluster := "default", authInfo := "default" })]
    currentContext := "default" }

/-- Concrete parser stub: recognizes exactly the rewritten text. -/
def loadDemo : String → Option KubeConfig :=
  fun s => if s = "server: https://1.2.3.4:6443" then some kubeCfgDemo else none

/-- Witness for C9: the loopback server address is rewritten, the parsed
single-entry config is renamed to the node name everywhere. -/
theorem C9_parseAndPatch_rename_witness :
    parseAndPatchKubeConfig loadDemo "server: https://127.0.0.1:6443" "1.2.3.4" "master-1" =
      some { clusters := [("master-1", "server: https://1.2.3.4:6443")]
             authInfos := [("master-1", "client-cert")]
             contexts := [("master-1", { cluster := "master-1", authInfo := "master-1" })]
             currentContext := "master-1" } :=
  C9_parseAndPatch_rename loadDemo "server: https://127.0.0.1:6443" "1.2.3.4" "master-1"
    kubeCfgDemo "server: https://1.2.3.4:6443" "client-cert"
    { cluster := "default", authInfo := "default" } "default" "default" "default"
    (by decide) rfl rfl rfl (by decide) (by decide) (by decide)

/-! ### Cluster store (`cluster/store.go`)

`SaveClusters` marshals the cluster slice with `encoding/json` and writes
the file; `LoadClusters` reads and unmarshals it.  The struct-to-JSON
mapping (field tags, the embedded `Worker` whose fields are promoted into
the cluster object, the nested `gitea.pg` object, the label map, the
worker array) is embedded explicitly below; the byte layer is modelled at
the JSON document level, with the file system as a path-to-document map.
Decoding follows Go semantics for the shapes the encoder can produce:
missing or null fields yield zero values. -/

/-- JSON documents produced by `encoding/json` for this data model. -/
inductive Json where
  | str (s : String)
  | bool (b : Bool)
  | arr (items : List Json)
  | obj (fields : List (String × Json))
  | null

/-- String field access with the Go zero-value default. -/
def strField (fields : List (String × Json)) (k : String) : String :=
  match mapLookup fields k with
  | some (Json.str s) => s
  | _ => ""

/-- Bool field access with the Go zero-value default. -/
def boolField (fields : List (String × Json)) (k : String) : Bool :=
  match mapLookup fields k with
  | some (Json.bool b) => b
  | _ => false

/-- Encoding of the `labels` map (tag `labels`). -/
def encodeLabels (labels : List (String × String)) : Json :=
  Json.obj (labels.map (fun kv => (kv.1, Json.str kv.2)))

/-- Decoding of a label object back to pairs. -/
def decodeLabelPairs : List (String × Json) → List (String × String)
  | [] => []
  | (k, Json.str v) :: rest => (k, v) :: decodeLabelPairs rest
  | _ :: rest => decodeLabelPairs rest

/-- Labels from an optional field value: an object decodes, `null` or a
missing field is the nil map. -/
def labelsOf (j : Option Json) : List (String × String) :=
  match j with
  | some (Json.obj fields) => decodeLabelPairs fields
  | _ => []

/-- Encoding of a `Worker` with its JSON tags
(`address`, `user`, `password`, `nodeName`, `labels`, `done`). -/
def encodeWorker (w : Worker) : Json :=
  Json.obj [("address", Json.str w.address), ("user", Json.str w.user),
            ("password", Json.str w.password), ("nodeName", Json.str w.nodeName),
            ("labels", encodeLabels w.labels), ("done", Json.bool w.done)]

/-- Decoding of a `Worker` from a JSON object. -/
def decodeWorker : Json → Option Worker
  | Json.obj fields =>
    some { address := strField fields "address"
           user := strField fields "user"
           password := strField fields "password"
           nodeName := strField fields "nodeName"
           labels := labelsOf (mapLookup fields "labels")
           done := boolField fields "done" }
  | _ => none

/-- Encoding of the `Pg` credentials (tags `user`, `password`, `db`). -/
def encodePg (p : Pg) : Json :=
  Json.obj [("user", Json.str p.username), ("password", Json.str p.password),
            ("db", Json.str p.dbName)]

/-- Encoding of the `Gitea` sub-config (tag `pg`). -/
def encodeGitea (g : Gitea) : Json :=
  Json.obj [("pg", encodePg g.pg)]

/-- `Pg` from an optional field value, with zero values as defaults. -/
def pgOf (j : Option Json) : Pg :=
  match j with
  | some (Json.obj fields) =>
    { username := strField fields "user"
      password := strField fields "password"
      dbName := strField fields "db" }
  | _ => { username := "", password := "", dbName := "" }

/-- `Gitea` from an optional field value. -/
def giteaOf (j : Option Json) : Gitea :=
  match j with
  | some (Json.obj fields) => { pg := pgOf (mapLookup fields "pg") }
  | _ => { pg := { username := "", password := "", dbName := "" } }

/-- Decoding of a worker array element list. -/
def decodeWorkerList : List Json → Option (List Worker)
  | [] => some []
  | j :: rest =>
    match decodeWorker j, decodeWorkerList rest with
    | some w, some ws => some (w :: ws)
    | _, _ => none

/-- Workers from an optional field value: an array decodes elementwise,
`null` or a missing field is the nil slice. -/
def workersOf : Option Json → Option (List Worker)
  | some (Json.arr items) => decodeWorkerList items
  | some Json.null => some []
  | none => some []
  | some _ => none

/-- Encoding of a `Cluster`: the embedded `Worker` fields are promoted
into the same object, followed by the cluster-only tagged fields
(`domain`, `gitea`, `privateNet`, `workers`). -/
def encodeCluster (c : Cluster) : Json :=
  Json.obj [("address", Json.str c.address), ("user", Json.str c.user),
            ("password", Json.str c.password), ("nodeName", Json.str c.nodeName),
            ("labels", encodeLabels c.labels), ("done", Json.bool c.done),
            ("domain", Json.str c.domain), ("gitea", encodeGitea c.gitea),
            ("privateNet", Json.bool c.privateNet),
            ("workers", Json.arr (c.workers.map encodeWorker))]

/-- Decoding of a `Cluster` from a JSON object. -/
def decodeCluster : Json → Option Cluster
  | Json.obj fields =>
    match workersOf (mapLookup fields "workers") with
    | some ws =>
      some { address := strField fields "address"
             user := strField fields "user"
             password := strField fields "password"
             nodeName := strField fields "nodeName"
             labels := labelsOf (mapLookup fields "labels")
             done := boolField fields "done"
             domain := strField fields "domain"
             gitea := giteaOf (mapLookup fields "gitea")
             privateNet := boolField fields "privateNet"
             workers := ws }
    | none => none
  | _ => none

/-- Decoding of a cluster array element list. -/
def decodeClusterList : List Json → Option (List Cluster)
  | [] => some []
  | j :: rest =>
    match decodeCluster j, decodeClusterList rest with
    | some c, some cs => some (c :: cs)
    | _, _ => none

/-- Encoding of the whole persisted document: a JSON array of clusters. -/
def encodeClusters (clusters : List Cluster) : Json :=
  Json.arr (clusters.map encodeCluster)

/-- Decoding of the whole persisted document. -/
def decodeClusters : Json → Option (List Cluster)
  | Json.arr items => decodeClusterList items
  | Json.null => some []
  | _ => none

/-- The file system as a path-to-document map. -/
structure FileSystem where
  files : List (String × Json)

/-- Model of `SaveClusters`: marshal the list and write it at `path`. -/
def SaveClusters (fs : FileSystem) (path : String) (clusters : List Cluster) : FileSystem :=
  { files := mapInsert fs.files path (encodeClusters clusters) }

/-- Model of `LoadClusters`: read the document at `path` and unmarshal it;
a missing file is the open error. -/
def LoadClusters (fs : FileSystem) (path : String) : Option (List Cluster) :=
  match mapLookup fs.files path with
  | none => none
  | some doc => decodeClusters doc

theorem mapLookup_mapInsert {α : Type} (m : List (String × α)) (k : String) (v : α) :
    mapLookup (mapInsert m k v) k = some v := by
  induction m with
  | nil => simp [mapInsert, mapLookup]
  | cons kv rest ih => by_cases h : kv.1 = k <;> simp [mapInsert, mapLookup, h, ih]

theorem labelsOf_encodeLabels (ls : List (String × String)) :
    labelsOf (some (encodeLabels ls)) = ls := by
  simp only [labelsOf, encodeLabels]
  induction ls with
  | nil => rfl
  | cons kv rest ih => simp [decodeLabelPairs, ih]

theorem decodeWorker_encodeWorker (w : Worker) :
    decodeWorker (encodeWorker w) = some w := by
  simp [encodeWorker, decodeWorker, strField, boolField, mapLookup, labelsOf_encodeLabels]

theorem decodeWorkerList_map (ws : List Worker) :
    decodeWorkerList (ws.map encodeWorker) = some ws := by
  induction ws with
  | nil => rfl
  | cons w rest ih => simp [decodeWorkerList, decodeWorker_encodeWorker, ih]

theorem decodeCluster_encodeCluster (c : Cluster) :
    decodeCluster (encodeCluster c) = some c := by
  simp [encodeCluster, decodeCluster, workersOf, decodeWorkerList_map, strField,
    boolField, mapLookup, labelsOf_encodeLabels, giteaOf, pgOf, encodeGitea, encodePg]

theorem decodeClusterList_map (cs : List Cluster) :
    decodeClusterList (cs.map encodeCluster) = some cs := by
  induction cs with
  | nil => rfl
  | cons c rest ih => simp [decodeClusterList, decodeCluster_encodeCluster, ih]

/-- C10: `SaveClusters` followed by `LoadClusters` on the same path
succeeds and returns a list equal to the original — the JSON persistence
of the `Cluster`/`Worker` model (address, user, password, nodeName,
labels, domain, privateNet, done, the gitea sub-config and the worker
list) is a lossless round-trip. -/
theorem C10_store_roundtrip (fs : FileSystem) (path : String) (clusters : List Cluster) :
    LoadClusters (SaveClusters fs path clusters) path = some clusters := by
  simp [LoadClusters, SaveClusters, mapLookup_mapInsert, encodeClusters,
    decodeClusters, decodeClusterList_map]

end K3sd
